import Mathlib

/-!
Verification of the web_site_ut repository core: the generated-content
parser (`website_generator.py`) and the local environment builder
(`environment_builder.py`).

Python strings are modelled as Lean `String` (a structure over
`List Char`); the Python string operations used by the code
(`split`, `lower`, `strip`, `startswith`, `replace`, `in`, slicing)
are given explicit executable definitions over the character list so
that they match CPython semantics on the inputs involved.
-/

/-- Python `sub in s` on character lists: substring containment,
scanning left to right. -/
def containsList (pat : List Char) : List Char → Bool
  | [] => pat.isEmpty
  | c :: cs => pat.isPrefixOf (c :: cs) || containsList pat cs

/-- Python `s.split(sep)` for a non-empty separator, fuel-driven so that
it is structural recursion: cut at each leftmost non-overlapping
occurrence of `sep`. The fuel is always instantiated with the length of
the scanned list, which suffices. -/
def splitOnListGo (sep : List Char) : Nat → List Char → List Char → List (List Char)
  | _, acc, [] => [acc.reverse]
  | 0, acc, rest => [acc.reverse ++ rest]
  | fuel + 1, acc, c :: cs =>
    if sep.isPrefixOf (c :: cs) && !sep.isEmpty then
      acc.reverse :: splitOnListGo sep fuel [] (List.drop (sep.length - 1) cs)
    else
      splitOnListGo sep fuel (c :: acc) cs

/-- Python `s.split(sep)` on character lists (separator non-empty in all uses). -/
def splitOnList (sep l : List Char) : List (List Char) := splitOnListGo sep l.length [] l

/-- Python `s.split(sep)` on strings. -/
def splitStr (s sep : String) : List String :=
  (splitOnList sep.data s.data).map (fun l => ⟨l⟩)

/-- Python `s.split(chr(10))` specialised to the newline separator; this
single-character case is given directly by structural recursion because
the proofs below reason about it by induction. It agrees with CPython:
an empty string yields one empty piece, and every newline character
starts a new piece. -/
def splitNlChars : List Char → List (List Char)
  | [] => [[]]
  | c :: cs =>
    if c == '\n' then [] :: splitNlChars cs
    else
      match splitNlChars cs with
      | [] => [[c]]
      | l :: ls => (c :: l) :: ls

/-- Python `response.split(chr(10))` on strings. -/
def pySplitLines (s : String) : List String := (splitNlChars s.data).map (fun l => ⟨l⟩)

/-- Python `sep.join(pieces)` for the newline separator, character level. -/
def joinNlChars : List (List Char) → List Char
  | [] => []
  | [l] => l
  | l :: ls => l ++ '\n' :: joinNlChars ls

/-- Python newline `join` on strings. -/
def pyJoinNl (ls : List String) : String := ⟨joinNlChars (ls.map String.data)⟩

/-- Python `s.lower()` (the code only feeds it ASCII marker text). -/
def lowerStr (s : String) : String := ⟨s.data.map Char.toLower⟩

/-- Python `sub in s` on strings. -/
def strContains (s pat : String) : Bool := containsList pat.data s.data

/-- Python `s.strip()`: drop whitespace from both ends. -/
def trimChars (l : List Char) : List Char :=
  ((l.dropWhile Char.isWhitespace).reverse.dropWhile Char.isWhitespace).reverse

/-- Python `s.strip()` on strings. -/
def trimStr (s : String) : String := ⟨trimChars s.data⟩

/-- Python `s.startswith(pat)` on strings. -/
def startsWithStr (s pat : String) : Bool := pat.data.isPrefixOf s.data

/-- Python `s.replace(str(['-','-','>']), empty)`: remove every
non-overlapping occurrence of the three characters dash dash greater,
left to right, exactly as `.replace('-' '-' '>', '')` does in
`_parse_generated_content`. -/
def removeArrows : List Char → List Char
  | '-' :: '-' :: '>' :: rest => removeArrows rest
  | c :: rest => c :: removeArrows rest
  | [] => []

/-- Python `s[:n]` on strings (slicing by code points). -/
def takeStr (s : String) (n : Nat) : String := ⟨s.data.take n⟩

/-- Python dict assignment `d[k] = v` on an insertion-ordered
association list: overwrite in place if the key exists, else append. -/
def insertD : List (String × String) → String → String → List (String × String)
  | [], k, v => [(k, v)]
  | (k0, v0) :: rest, k, v =>
    if k0 == k then (k, v) :: rest else (k0, v0) :: insertD rest k v

/-! ## Content parser (`WebsiteGenerator._parse_generated_content`) -/

/-- The marker list of `_parse_generated_content`, in source order. -/
def file_markers : List String :=
  ["filename:", "file:", "<!-- file:", "// file:", "# file:"]

/-- Line test of `_parse_generated_content`:
`any(marker in line.lower() for marker in [...])`. -/
def isMarkerLine (line : String) : Bool :=
  file_markers.any (fun m => strContains (lowerStr line) m)

/-- Filename extraction of `_parse_generated_content`: the first marker
(in list order) contained in the lowered line selects
`line.lower().split(marker)[1].strip().replace(arrow, empty).strip()`. -/
def extractFilename (line : String) : String :=
  match file_markers.find? (fun m => strContains (lowerStr line) m) with
  | some m =>
    trimStr ⟨removeArrows (trimStr ((splitStr (lowerStr line) m).getD 1 "")).data⟩
  | none => ""

/-- Loop state of `_parse_generated_content`: the files dict, the
`current_file` variable (Python `None` is `none`; note an extracted
empty filename is `some` of the empty string, which Python treats as
falsy exactly like `None`), and the `current_content` list. -/
structure ParseState where
  files : List (String × String)
  currentFile : Option String
  currentContent : List String
deriving DecidableEq

/-- Python truthiness of the `current_file` variable: `None` and the
empty string are falsy. -/
def truthyFile : Option String → Bool
  | none => false
  | some s => !s.data.isEmpty

/-- One iteration of the `for line in lines` loop of
`_parse_generated_content`. -/
def parseStep (st : ParseState) (line : String) : ParseState :=
  if isMarkerLine line then
    let files :=
      if truthyFile st.currentFile && !st.currentContent.isEmpty then
        insertD st.files (st.currentFile.getD "") (pyJoinNl st.currentContent)
      else st.files
    { files := files, currentFile := some (extractFilename line), currentContent := [] }
  else if startsWithStr (trimStr line) "```" && truthyFile st.currentFile then
    st
  else if truthyFile st.currentFile then
    { st with currentContent := st.currentContent ++ [line] }
  else
    st

/-- The commit performed after the loop (`Save last file`). -/
def parseFinalize (st : ParseState) : List (String × String) :=
  if truthyFile st.currentFile && !st.currentContent.isEmpty then
    insertD st.files (st.currentFile.getD "") (pyJoinNl st.currentContent)
  else st.files

/-- The marker-scanning part of `_parse_generated_content`, from a list
of lines to the files dict (before the empty-dict fallback). -/
def parseLines (lines : List String) : List (String × String) :=
  parseFinalize (lines.foldl parseStep ⟨[], none, []⟩)

/-- Head of the default `index.html`, up to the opening `<pre>` tag
(from `_create_default_website_structure`). -/
def default_index_head : String :=
  "<!DOCTYPE html>\n<html lang=\"en\">\n<head>\n    <meta charset=\"UTF-8\">\n    <meta name=\"viewport\" content=\"width=device-width, initial-scale=1.0\">\n    <title>Test Merchant Site</title>\n    <link rel=\"stylesheet\" href=\"styles.css\">\n</head>\n<body>\n    <h1>Test Merchant Website</h1>\n    <p>Generated content:</p>\n    <pre>"

/-- Tail of the default `index.html`, from the ellipsis after the
embedded content to the end of the document. -/
def default_index_tail : String :=
  "...</pre>\n    <script src=\"script.js\"></script>\n</body>\n</html>"

/-- The fixed default `styles.css` content. -/
def default_styles_css : String :=
  "\nbody \x7b\n    font-family: Arial, sans-serif;\n    margin: 0;\n    padding: 20px;\n    background-color: #f5f5f5;\n\x7d\n\nh1 \x7b\n    color: #333;\n    text-align: center;\n\x7d\n\npre \x7b\n    background: #fff;\n    padding: 15px;\n    border-radius: 5px;\n    box-shadow: 0 2px 5px rgba(0,0,0,0.1);\n\x7d"

/-- The fixed default `script.js` content. -/
def default_script_js : String :=
  "\n// Basic anti-crawler functionality\nconsole.log(\x27Website loaded\x27);\n\n// Simple rate limiting\nlet requestCount = 0;\nconst MAX_REQUESTS = 10;\n\nfunction checkRateLimit() \x7b\n    requestCount++;\n    if (requestCount > MAX_REQUESTS) \x7b\n        alert(\x27Too many requests!\x27);\n        return false;\n    \x7d\n    return true;\n\x7d\n\n// User agent detection\nif (navigator.userAgent.includes(\x27bot\x27) || navigator.userAgent.includes(\x27crawler\x27)) \x7b\n    console.warn(\x27Bot detected!\x27);\n\x7d"

/-- `WebsiteGenerator._create_default_website_structure`: the three-file
default site; `index.html` embeds the first 1000 characters of the raw
content. -/
def create_default_website_structure (content : String) : List (String × String) :=
  [("index.html", default_index_head ++ takeStr content 1000 ++ default_index_tail),
   ("styles.css", default_styles_css),
   ("script.js", default_script_js)]

/-- `WebsiteGenerator._parse_generated_content`: split the response into
lines, run the marker scan, and fall back to the default structure when
no file was parsed. -/
def parse_generated_content (response : String) : List (String × String) :=
  let files := parseLines (pySplitLines response)
  if files.isEmpty then create_default_website_structure response else files

/-! ## Environment builder (`environment_builder.py`)

The filesystem is modelled as explicit state: a set of existing
directories and a set of files with contents, each identified by its
absolute path as a list of segments. OS-level path resolution of a
relative filename against a base directory (what `Path.__truediv__`
followed by `open` amounts to) interprets `..`, `.` and empty
segments. TCP port occupancy is an oracle `Nat → Bool` standing for
`socket.connect_ex` succeeding on `localhost:port`. -/

/-- Errors raised by the Python code that the claims touch. -/
inductive PyErr where
  | valueError : String → PyErr
  | runtimeError : String → PyErr
deriving DecidableEq

/-- Explicit filesystem state: existing directories and files. -/
structure FS where
  dirs : List (List String)
  files : List (List String × String)
deriving DecidableEq

/-- Python `path.exists()`: the path is a directory or a file. -/
def pathExistsB (fs : FS) (p : List String) : Bool :=
  fs.dirs.contains p || (fs.files.map Prod.fst).contains p

/-- Python `path.mkdir(exist_ok=True)`. -/
def mkdirExistOk (fs : FS) (p : List String) : FS :=
  if fs.dirs.contains p then fs else { fs with dirs := p :: fs.dirs }

/-- Python `shutil.rmtree(p)`: remove the directory and everything below it. -/
def rmtree (fs : FS) (p : List String) : FS :=
  { dirs := fs.dirs.filter (fun d => !p.isPrefixOf d),
    files := fs.files.filter (fun f => !p.isPrefixOf f.1) }

/-- Overwrite-or-append for the file table (a later write to the same
path replaces the content). -/
def insertFileD : List (List String × String) → List String → String → List (List String × String)
  | [], p, c => [(p, c)]
  | (p0, c0) :: rest, p, c =>
    if p0 == p then (p, c) :: rest else (p0, c0) :: insertFileD rest p c

/-- Python `open(p, mode_w).write(content)`: create or overwrite the file. -/
def writeFileFS (fs : FS) (p : List String) (content : String) : FS :=
  { fs with files := insertFileD fs.files p content }

/-- OS path resolution of a slash-separated relative filename against a
base directory: `..` pops a segment, `.` and empty segments are
ignored, anything else descends. -/
def resolvePath (base : List String) (filename : String) : List String :=
  (splitStr filename "/").foldl
    (fun acc seg =>
      if seg == ".." then acc.dropLast
      else if seg == "." || seg == "" then acc
      else acc ++ [seg])
    base

/-- All non-empty prefixes of a path, shortest first. -/
def prefixesOf (p : List String) : List (List String) :=
  (List.range p.length).map (fun i => p.take (i + 1))

/-- Python `path.mkdir(parents=True, exist_ok=True)`. -/
def mkdirParents (fs : FS) (p : List String) : FS :=
  (prefixesOf p).foldl mkdirExistOk fs

/-- `LocalWebServer` runtime record: served directory, port, running flag. -/
structure LocalWebServer where
  directory : List String
  port : Nat
  isRunning : Bool
deriving DecidableEq

/-- `EnvironmentBuilder` state: its base directory, the filesystem it
works on, and the `active_servers` registry (a dict keyed by
environment name). -/
structure EnvBuilderState where
  baseDirectory : List String
  filesystem : FS
  activeServers : List (String × LocalWebServer)
deriving DecidableEq

/-- Registry overwrite-or-append, matching dict assignment. -/
def insertServerD : List (String × LocalWebServer) → String → LocalWebServer → List (String × LocalWebServer)
  | [], k, v => [(k, v)]
  | (k0, v0) :: rest, k, v =>
    if k0 == k then (k, v) :: rest else (k0, v0) :: insertServerD rest k v

/-- `LocalWebServer.find_free_port`, fuel-driven form of the
`while port < 65535` loop; the fuel is `65535 - port`, so the loop body
runs exactly for ports `start, ..., 65534` and the port 65535 itself is
never probed. `occupied p = true` models `connect_ex == 0` (something
answers on the port). -/
def find_free_port_go (occupied : Nat → Bool) : Nat → Nat → Except PyErr Nat
  | _, 0 => .error (.runtimeError "No free ports available")
  | port, fuel + 1 =>
    if occupied port then find_free_port_go occupied (port + 1) fuel else .ok port

/-- `LocalWebServer.find_free_port(start_port)`. -/
def find_free_port (occupied : Nat → Bool) (startPort : Nat) : Except PyErr Nat :=
  find_free_port_go occupied startPort (65535 - startPort)

/-- Port-retargeting phase of `LocalWebServer.start`: if the preferred
port is occupied, advance via `find_free_port`; a failure there is
swallowed by the bare `except`, leaving the port unchanged. -/
def LocalWebServer.retarget (occupied : Nat → Bool) (s : LocalWebServer) : LocalWebServer :=
  if occupied s.port then
    match find_free_port occupied (s.port + 1) with
    | .ok p => { s with port := p }
    | .error _ => s
  else s

/-- `LocalWebServer.start`: return the port if already running;
otherwise retarget the port if needed, then bind, which fails with a
RuntimeError when the chosen port is occupied; on success the server
runs on the bound port. -/
def LocalWebServer.start (occupied : Nat → Bool) (s : LocalWebServer) :
    Except PyErr (LocalWebServer × Nat) :=
  if s.isRunning then .ok (s, s.port)
  else if occupied (LocalWebServer.retarget occupied s).port then
    .error (.runtimeError "Failed to start server")
  else
    .ok ({ LocalWebServer.retarget occupied s with isRunning := true },
         (LocalWebServer.retarget occupied s).port)

/-- `LocalWebServer.get_url`. -/
def LocalWebServer.get_url (s : LocalWebServer) : Option String :=
  if s.isRunning then some ("http://localhost:" ++ toString s.port) else none

/-- The fixed skeleton of `create_test_environment`, in source order. -/
def standard_subdirs : List String :=
  ["static", "templates", "assets", "css", "js", "images"]

/-- `EnvironmentBuilder.create_test_environment(name, clean)`: optionally
wipe the existing directory, then create the root and the six fixed
subdirectories; returns the new state and the environment path. -/
def create_test_environment (st : EnvBuilderState) (name : String) (clean : Bool) :
    EnvBuilderState × List String :=
  let envPath := st.baseDirectory ++ [name]
  let fs :=
    if pathExistsB st.filesystem envPath && clean then rmtree st.filesystem envPath
    else st.filesystem
  let fs := mkdirExistOk fs envPath
  let fs := standard_subdirs.foldl (fun fs d => mkdirExistOk fs (envPath ++ [d])) fs
  ({ st with filesystem := fs }, envPath)

/-- `EnvironmentBuilder.create_website_files(env_path, website_content)`:
for each entry, create parent directories, then write the content at
the resolved path. There is no traversal guard in the source. -/
def create_website_files (fs : FS) (envPath : List String)
    (websiteContent : List (String × String)) : FS :=
  websiteContent.foldl
    (fun fs kv =>
      let filePath := resolvePath envPath kv.1
      let fs := mkdirParents fs filePath.dropLast
      writeFileFS fs filePath kv.2)
    fs

/-- The Python `port or 8000` default of `start_local_server`: both
`None` and a falsy `0` fall back to 8000. -/
def resolvePort (port : Option Nat) : Nat :=
  match port with
  | some q => if q == 0 then 8000 else q
  | none => 8000

/-- `EnvironmentBuilder.start_local_server(env_name, port)`: fail if the
environment directory does not exist; return the registered server URL
if one is registered; otherwise resolve the port, start a fresh server
and register it. -/
def start_local_server (occupied : Nat → Bool) (st : EnvBuilderState)
    (envName : String) (port : Option Nat) :
    Except PyErr (EnvBuilderState × Option String) :=
  if !pathExistsB st.filesystem (st.baseDirectory ++ [envName]) then
    .error (.valueError ("Environment \x27" ++ envName ++ "\x27 does not exist"))
  else
    match List.lookup envName st.activeServers with
    | some srv => .ok (st, srv.get_url)
    | none =>
      match LocalWebServer.start occupied
          ⟨st.baseDirectory ++ [envName], resolvePort port, false⟩ with
      | .error e => .error e
      | .ok (server, actualPort) =>
        .ok ({ st with activeServers := insertServerD st.activeServers envName server },
             some ("http://localhost:" ++ toString actualPort))

/-- `EnvironmentBuilder.stop_local_server(env_name)`: stop and drop the
registry entry if present, else no-op. -/
def stop_local_server (st : EnvBuilderState) (envName : String) : EnvBuilderState :=
  match List.lookup envName st.activeServers with
  | some _ =>
    { st with activeServers := st.activeServers.filter (fun kv => !(kv.1 == envName)) }
  | none => st

/-- `EnvironmentBuilder.cleanup_environment(env_name)`: stop any server
for the name, then remove the directory if it exists (the Python local
rebinding of `self`-state by `stop_local_server` is written out as
repeated applications). -/
def cleanup_environment (st : EnvBuilderState) (envName : String) : EnvBuilderState :=
  if pathExistsB (stop_local_server st envName).filesystem
      ((stop_local_server st envName).baseDirectory ++ [envName]) then
    { stop_local_server st envName with
      filesystem := rmtree (stop_local_server st envName).filesystem
        ((stop_local_server st envName).baseDirectory ++ [envName]) }
  else stop_local_server st envName

/-! ## Orchestrator (`WebsiteGenerator`)

The text-generation collaborator is a black box: its response is a
parameter. `random.randint(1000, 9999)` is a parameter `rand`, and
`str(Path().resolve())` (the metadata timestamp) is a parameter `cwd`.
Metadata values may be Python `None`, modelled as `none`. -/

/-- Result of `generate_website_from_prompt`. -/
structure WebsiteData where
  files : List (String × String)
  metadata : List (String × Option String)
  raw_response : String
deriving DecidableEq

/-- Deployment descriptor returned by `generate_and_deploy`. -/
structure DeploymentResult where
  website_data : WebsiteData
  server_url : Option String
  environment_name : String
  success : Bool
deriving DecidableEq

/-- Python `metadata.get(key, default)` rendered through an f-string
(a `None` value prints as the text `None`). -/
def pyGetStr (md : List (String × Option String)) (key dflt : String) : String :=
  match List.lookup key md with
  | some (some v) => v
  | some none => "None"
  | none => dflt

/-- Simple rendering of the `json.dump(metadata, f, indent=2)` sidecar;
the claims never inspect this text, only that the file is written. -/
def json_dump (md : List (String × Option String)) : String :=
  "\x7b\n" ++
  String.intercalate ",\n"
    (md.map (fun kv =>
      "  \"" ++ kv.1 ++ "\": " ++
      (match kv.2 with
       | some v => "\"" ++ v ++ "\""
       | none => "null"))) ++
  "\n\x7d"

/-- `WebsiteGenerator.generate_website_from_prompt` after the
collaborator call: parse the response and attach metadata. -/
def generate_website_from_prompt (response userPrompt : String)
    (additionalRequirements : Option String) (cwd : String) : WebsiteData :=
  { files := parse_generated_content response,
    metadata :=
      [("user_prompt", some userPrompt),
       ("additional_requirements", additionalRequirements),
       ("generation_timestamp", some cwd)],
    raw_response := response }

/-- `WebsiteGenerator.deploy_to_local_environment`: synthesize a name
when `env_name is None`, create the environment with `clean=True`,
write the parsed files and the metadata sidecar, then start the local
server, returning the new state and the URL the server call produced. -/
def deploy_to_local_environment (occupied : Nat → Bool) (rand : Nat)
    (st : EnvBuilderState) (websiteData : WebsiteData)
    (envName : Option String) (port : Option Nat) :
    Except PyErr (EnvBuilderState × Option String) :=
  let name := match envName with
    | some n => n
    | none => pyGetStr websiteData.metadata "merchant_type" "merchant" ++ "_test_" ++ toString rand
  let (st, envPath) := create_test_environment st name true
  let fs := create_website_files st.filesystem envPath websiteData.files
  let fs := writeFileFS fs (envPath ++ ["metadata.json"]) (json_dump websiteData.metadata)
  start_local_server occupied { st with filesystem := fs } name port

/-- `WebsiteGenerator.generate_and_deploy`: generate, deploy, and build
the result descriptor. Its `environment_name` field is
`env_name or "generated_test"`, computed from the caller-supplied
argument, not from the name the deployment actually used. -/
def generate_and_deploy (occupied : Nat → Bool) (rand : Nat)
    (response cwd : String) (st : EnvBuilderState)
    (userPrompt : String) (additionalRequirements : Option String)
    (envName : Option String) (port : Option Nat) :
    Except PyErr (EnvBuilderState × DeploymentResult) :=
  let wd := generate_website_from_prompt response userPrompt additionalRequirements cwd
  match deploy_to_local_environment occupied rand st wd envName port with
  | .error e => .error e
  | .ok (st, url) =>
    .ok (st,
      { website_data := wd,
        server_url := url,
        environment_name :=
          match envName with
          | some n => if n == "" then "generated_test" else n
          | none => "generated_test",
        success := true })

deriving instance DecidableEq for Except

/-! ## Helper lemmas -/

/-- Strings with equal character data are equal. -/
theorem string_eq_of_data {a b : String} (h : a.data = b.data) : a = b := by
  cases a
  cases b
  exact congrArg String.mk (by simpa using h)

/-- Building a string from a character list and the empty string. -/
theorem string_mk_eq_empty_iff (l : List Char) : (⟨l⟩ : String) = "" ↔ l = [] := by
  constructor
  · intro h
    have hd : (⟨l⟩ : String).data = ("" : String).data := by rw [h]
    simpa using hd
  · intro h
    subst h
    rfl

/-- A non-empty string is truthy as a `current_file` value. -/
theorem truthyFile_some_of_ne {s : String} (h : s ≠ "") : truthyFile (some s) = true := by
  cases s with
  | mk l =>
    cases l with
    | nil => exact absurd ((string_mk_eq_empty_iff []).mpr rfl) h
    | cons c cs => rfl

/-- Newline-joining a single piece is the piece itself. -/
theorem pyJoinNl_singleton (s : String) : pyJoinNl [s] = s := rfl

/-- Splitting never yields an empty piece list. -/
theorem splitNlChars_ne_nil (l : List Char) : splitNlChars l ≠ [] := by
  induction l with
  | nil => simp [splitNlChars]
  | cons c cs ih =>
    unfold splitNlChars
    by_cases h : c == '\n'
    · simp [h]
    · simp only [h]
      cases hs : splitNlChars cs with
      | nil => simp
      | cons p ps => simp

/-- Scanning a newline-free chunk before an explicit newline. -/
theorem splitNlChars_chunk_cons (l rest : List Char) (h : '\n' ∉ l) :
    splitNlChars (l ++ '\n' :: rest) = l :: splitNlChars rest := by
  induction l with
  | nil => simp [splitNlChars]
  | cons c cs ih =>
    have hc : c ≠ '\n' := fun hx => h (hx ▸ List.mem_cons_self c cs)
    have hcs : '\n' ∉ cs := fun hx => h (List.mem_cons_of_mem c hx)
    show splitNlChars (c :: (cs ++ '\n' :: rest)) = (c :: cs) :: splitNlChars rest
    rw [splitNlChars]
    simp only [beq_iff_eq, hc, if_false]
    rw [ih hcs]

/-- Scanning a newline-free list yields a single piece. -/
theorem splitNlChars_of_no_nl (l : List Char) (h : '\n' ∉ l) :
    splitNlChars l = [l] := by
  induction l with
  | nil => rfl
  | cons c cs ih =>
    have hc : c ≠ '\n' := fun hx => h (hx ▸ List.mem_cons_self c cs)
    have hcs : '\n' ∉ cs := fun hx => h (List.mem_cons_of_mem c hx)
    unfold splitNlChars
    simp only [beq_iff_eq, hc, if_false, ih hcs]

/-- Splitting on newlines undoes newline-joining when no piece contains
a newline. -/
theorem splitNl_joinNl (lls : List (List Char)) (hne : lls ≠ [])
    (h : ∀ l ∈ lls, '\n' ∉ l) :
    splitNlChars (joinNlChars lls) = lls := by
  induction lls with
  | nil => exact absurd rfl hne
  | cons l ls ih =>
    cases ls with
    | nil =>
      exact splitNlChars_of_no_nl l (h l (List.mem_cons_self l []))
    | cons l2 ls2 =>
      have h1 : '\n' ∉ l := h l (List.mem_cons_self _ _)
      have h2 : ∀ x ∈ l2 :: ls2, '\n' ∉ x := fun x hx => h x (List.mem_cons_of_mem l hx)
      have : joinNlChars (l :: l2 :: ls2) = l ++ '\n' :: joinNlChars (l2 :: ls2) := rfl
      rw [this, splitNlChars_chunk_cons l _ h1, ih (by simp) h2]

/-- String-level version of `splitNl_joinNl`. -/
theorem pySplitLines_pyJoinNl (ls : List String) (hne : ls ≠ [])
    (h : ∀ l ∈ ls, l.data.contains '\n' = false) :
    pySplitLines (pyJoinNl ls) = ls := by
  unfold pySplitLines pyJoinNl
  have hchar : ∀ l ∈ ls.map String.data, '\n' ∉ l := by
    intro l hl
    rcases List.mem_map.mp hl with ⟨s, hs, rfl⟩
    have := h s hs
    simpa using this
  have hne2 : ls.map String.data ≠ [] := by
    cases ls with
    | nil => exact absurd rfl hne
    | cons a as => simp
  rw [show (String.data ⟨joinNlChars (ls.map String.data)⟩ = joinNlChars (ls.map String.data)) from rfl]
  rw [splitNl_joinNl (ls.map String.data) hne2 hchar]
  rw [List.map_map]
  have : (fun l => (⟨l⟩ : String)) ∘ String.data = id := by
    funext s
    cases s
    rfl
  rw [this, List.map_id]

/-- Effect of the loop body on a marker line. -/
theorem parseStep_marker (st : ParseState) (line : String)
    (h : isMarkerLine line = true) :
    parseStep st line =
      ⟨if truthyFile st.currentFile && !st.currentContent.isEmpty then
          insertD st.files (st.currentFile.getD "") (pyJoinNl st.currentContent)
        else st.files,
       some (extractFilename line), []⟩ := by
  simp only [parseStep, h, if_true]

/-- Effect of the loop body on a non-marker line while no (truthy)
file is open. -/
theorem parseStep_closed (st : ParseState) (line : String)
    (hm : isMarkerLine line = false) (ht : truthyFile st.currentFile = false) :
    parseStep st line = st := by
  simp only [parseStep, hm, ht, Bool.and_false, Bool.false_eq_true, if_false]

/-- Effect of the loop body on a fence line while a file is open. -/
theorem parseStep_fence (st : ParseState) (line : String)
    (hm : isMarkerLine line = false)
    (hfence : startsWithStr (trimStr line) "```" = true)
    (ht : truthyFile st.currentFile = true) :
    parseStep st line = st := by
  simp only [parseStep, hm, hfence, ht, Bool.and_self, if_true, Bool.false_eq_true, if_false]

/-- Effect of the loop body on a content line while a file is open. -/
theorem parseStep_content (st : ParseState) (line : String)
    (hm : isMarkerLine line = false)
    (hfence : startsWithStr (trimStr line) "```" = false)
    (ht : truthyFile st.currentFile = true) :
    parseStep st line = { st with currentContent := st.currentContent ++ [line] } := by
  simp only [parseStep, hm, hfence, ht, Bool.false_and, Bool.false_eq_true, if_false, if_true]

/-- The loop keeps its initial state over marker-free input. -/
theorem foldl_parseStep_no_marker (lines : List String)
    (h : ∀ l ∈ lines, isMarkerLine l = false) :
    lines.foldl parseStep ⟨[], none, []⟩ = ⟨[], none, []⟩ := by
  induction lines with
  | nil => rfl
  | cons l ls ih =>
    have h1 : isMarkerLine l = false := h l (List.mem_cons_self _ _)
    have h2 : ∀ x ∈ ls, isMarkerLine x = false := fun x hx => h x (List.mem_cons_of_mem l hx)
    have hstep : parseStep ⟨[], none, []⟩ l = ⟨[], none, []⟩ :=
      parseStep_closed _ _ h1 rfl
    rw [List.foldl_cons, hstep, ih h2]

/-- C3. Parsing marker-free text always yields exactly the three-entry
default file set, with `index.html` embedding the first 1000 characters
of the raw input between the `<pre>` tags, and no error is possible
(the function is total). -/
theorem parse_no_marker_yields_default (response : String)
    (h : ∀ l ∈ pySplitLines response, isMarkerLine l = false) :
    parse_generated_content response =
      [("index.html", default_index_head ++ takeStr response 1000 ++ default_index_tail),
       ("styles.css", default_styles_css),
       ("script.js", default_script_js)] := by
  unfold parse_generated_content parseLines
  rw [foldl_parseStep_no_marker (pySplitLines response) h]
  rfl

/-- Witness for C3 at the concrete marker-free input `hello world`. -/
theorem parse_no_marker_yields_default_witness :
    parse_generated_content "hello world" =
      [("index.html", default_index_head ++ takeStr "hello world" 1000 ++ default_index_tail),
       ("styles.css", default_styles_css),
       ("script.js", default_script_js)] :=
  parse_no_marker_yields_default "hello world" (by decide)

/-- A non-empty list is not `isEmpty`. -/
theorem isEmpty_false_of_ne {α : Type} {l : List α} (h : l ≠ []) : l.isEmpty = false := by
  cases l with
  | nil => exact absurd rfl h
  | cons a as => rfl

/-- Two consecutive marker lines behave like the second alone: the first
opens a file whose buffer is still empty when the second arrives, so
nothing is committed for it. -/
theorem parseStep_marker_marker (st : ParseState) (m1 m2 : String)
    (h1 : isMarkerLine m1 = true) (h2 : isMarkerLine m2 = true) :
    parseStep (parseStep st m1) m2 = parseStep st m2 := by
  rw [parseStep_marker st m1 h1, parseStep_marker _ m2 h2, parseStep_marker st m2 h2]
  simp

/-- A marker line as the last line commits nothing: finalization sees an
empty buffer, and the pending commit of the previous block is the same
either way. -/
theorem parseFinalize_parseStep_marker (st : ParseState) (m : String)
    (h : isMarkerLine m = true) :
    parseFinalize (parseStep st m) = parseFinalize st := by
  rw [parseStep_marker st m h]
  unfold parseFinalize
  simp

/-- C10. A marker block whose content buffer is empty at commit time is
never stored: a marker line immediately followed by another marker line
contributes nothing to the result, and a marker line at the end of the
input contributes nothing either. -/
theorem parse_drops_empty_marker_blocks (pre post : List String) (m1 m2 : String)
    (h1 : isMarkerLine m1 = true) (h2 : isMarkerLine m2 = true) :
    parseLines (pre ++ m1 :: m2 :: post) = parseLines (pre ++ m2 :: post)
    ∧ parseLines (pre ++ [m1]) = parseLines pre := by
  constructor
  · unfold parseLines
    rw [List.foldl_append, List.foldl_append, List.foldl_cons, List.foldl_cons,
      List.foldl_cons, parseStep_marker_marker _ m1 m2 h1 h2]
  · unfold parseLines
    rw [List.foldl_append, List.foldl_cons, List.foldl_nil,
      parseFinalize_parseStep_marker _ m1 h1]

/-- Witness for C10 on concrete inputs: the `a.html` block carries no
content, so only `b.html` is stored. -/
theorem parse_drops_empty_marker_blocks_witness :
    (parseLines (["File: a.html", "File: b.html", "hello"]) =
        parseLines (["File: b.html", "hello"])
      ∧ parseLines (["File: a.html"]) = parseLines ([] : List String))
    ∧ parseLines (["File: a.html", "File: b.html", "hello"]) = [("b.html", "hello")] :=
  ⟨parse_drops_empty_marker_blocks [] ["hello"] "File: a.html" "File: b.html"
      (by decide) (by decide),
   by decide⟩

/-- Folding content lines while a file is open only extends the buffer. -/
theorem foldl_parseStep_content (cs : List String) (st : ParseState)
    (ht : truthyFile st.currentFile = true)
    (h : ∀ l ∈ cs, isMarkerLine l = false ∧ startsWithStr (trimStr l) "```" = false) :
    cs.foldl parseStep st = { st with currentContent := st.currentContent ++ cs } := by
  induction cs generalizing st with
  | nil => simp
  | cons c cs2 ih =>
    have hc := h c (List.mem_cons_self _ _)
    have hrest : ∀ l ∈ cs2, isMarkerLine l = false ∧ startsWithStr (trimStr l) "```" = false :=
      fun l hl => h l (List.mem_cons_of_mem c hl)
    rw [List.foldl_cons, parseStep_content st c hc.1 hc.2 ht]
    rw [ih { st with currentContent := st.currentContent ++ [c] } ht hrest]
    simp

/-- C4. Last-write-wins: an input made of a marker block for a filename
followed by a second marker block for the same filename parses to a
mapping holding only the second block content under that filename; the
first block content is overwritten, not concatenated. -/
theorem parse_last_write_wins (m : String) (b1 b2 : List String)
    (hm : isMarkerLine m = true)
    (hf : extractFilename m ≠ "")
    (hmnl : m.data.contains '\n' = false)
    (hb1 : b1 ≠ []) (hb2 : b2 ≠ [])
    (h1 : ∀ l ∈ b1, isMarkerLine l = false ∧ startsWithStr (trimStr l) "```" = false
      ∧ l.data.contains '\n' = false)
    (h2 : ∀ l ∈ b2, isMarkerLine l = false ∧ startsWithStr (trimStr l) "```" = false
      ∧ l.data.contains '\n' = false) :
    parse_generated_content (pyJoinNl (m :: b1 ++ m :: b2)) =
      [(extractFilename m, pyJoinNl b2)] := by
  have ht : truthyFile (some (extractFilename m)) = true := truthyFile_some_of_ne hf
  have hsplit : pySplitLines (pyJoinNl (m :: b1 ++ m :: b2)) = m :: b1 ++ m :: b2 := by
    apply pySplitLines_pyJoinNl _ (by simp)
    intro l hl
    rcases List.mem_cons.mp hl with rfl | hl2
    · exact hmnl
    rcases List.mem_append.mp hl2 with hl3 | hl4
    · exact (h1 l hl3).2.2
    rcases List.mem_cons.mp hl4 with rfl | hl5
    · exact hmnl
    · exact (h2 l hl5).2.2
  have s1 : List.foldl parseStep ⟨[], none, []⟩ (m :: b1) =
      ⟨[], some (extractFilename m), b1⟩ := by
    rw [List.foldl_cons, parseStep_marker _ m hm]
    simp only [truthyFile, Bool.false_and, Bool.false_eq_true, if_false]
    rw [foldl_parseStep_content b1 ⟨[], some (extractFilename m), []⟩ ht
      (fun l hl => ⟨(h1 l hl).1, (h1 l hl).2.1⟩)]
    simp
  have s2 : List.foldl parseStep ⟨[], some (extractFilename m), b1⟩ (m :: b2) =
      ⟨[(extractFilename m, pyJoinNl b1)], some (extractFilename m), b2⟩ := by
    rw [List.foldl_cons, parseStep_marker _ m hm]
    simp only [ht, isEmpty_false_of_ne hb1, Bool.not_false, Bool.and_self, if_true,
      Option.getD_some]
    rw [foldl_parseStep_content b2 ⟨insertD [] (extractFilename m) (pyJoinNl b1),
      some (extractFilename m), []⟩ ht (fun l hl => ⟨(h2 l hl).1, (h2 l hl).2.1⟩)]
    simp [insertD]
  have hlines : parseLines (m :: b1 ++ m :: b2) = [(extractFilename m, pyJoinNl b2)] := by
    unfold parseLines
    rw [List.foldl_append, s1, s2]
    unfold parseFinalize
    simp only [ht, isEmpty_false_of_ne hb2, Bool.not_false, Bool.and_self, if_true,
      Option.getD_some]
    simp [insertD]
  unfold parse_generated_content
  rw [hsplit, hlines]
  rfl

/-- Witness for C4: the same filename marked twice keeps only `two`. -/
theorem parse_last_write_wins_witness :
    parse_generated_content (pyJoinNl ["File: a.html", "one", "File: a.html", "two"]) =
      [(extractFilename "File: a.html", pyJoinNl ["two"])] :=
  parse_last_write_wins "File: a.html" ["one"] ["two"] (by decide) (by decide) (by decide)
    (by decide) (by decide) (by decide) (by decide)

/-- Synthetic model-response encoding of one file-set entry used by the
round-trip property: a supported marker line followed by fenced content. -/
def encodeEntry (e : String × String) : List String :=
  ["File: " ++ e.1, "```", e.2, "```"]

/-- Lines of the synthetic model response for a whole file set. -/
def encodeLines : List (String × String) → List String
  | [] => []
  | e :: rest => encodeEntry e ++ encodeLines rest

/-- The synthetic model response for a whole file set. -/
def encodeFileSet (fs : List (String × String)) : String := pyJoinNl (encodeLines fs)

/-- Precondition on a file-set entry under which the parser recovers it
from the synthetic encoding: the marker heuristic maps the encoded
marker line back to exactly this key (so the key must already be
lower-case, trimmed, and free of marker substrings), the content is a
single non-empty line that is neither a marker line nor a fence line,
and neither part embeds a newline. -/
def RoundTripEntry (e : String × String) : Prop :=
  isMarkerLine ("File: " ++ e.1) = true ∧
  extractFilename ("File: " ++ e.1) = e.1 ∧
  e.1 ≠ "" ∧
  e.2 ≠ "" ∧
  isMarkerLine e.2 = false ∧
  startsWithStr (trimStr e.2) "```" = false ∧
  ("File: " ++ e.1).data.contains '\n' = false ∧
  e.2.data.contains '\n' = false

/-- Appending a fresh key to a dict is a plain append. -/
theorem insertD_append_fresh (acc : List (String × String)) (k v : String)
    (h : k ∉ acc.map Prod.fst) :
    insertD acc k v = acc ++ [(k, v)] := by
  induction acc with
  | nil => rfl
  | cons kv rest ih =>
    obtain ⟨k0, v0⟩ := kv
    simp only [List.map_cons, List.mem_cons, not_or] at h
    have hk : (k0 == k) = false := beq_eq_false_iff_ne.mpr (fun hx => h.1 hx.symm)
    show (if k0 == k then (k, v) :: rest else (k0, v0) :: insertD rest k v) = _
    rw [hk]
    simp only [Bool.false_eq_true, if_false, List.cons_append]
    rw [ih (fun hx => h.2 hx)]

/-- Folding dict insertion over entries with fresh, pairwise distinct
keys is a plain append. -/
theorem foldl_insertD_fresh (fs : List (String × String)) :
    ∀ acc : List (String × String),
      (∀ e ∈ fs, e.1 ∉ acc.map Prod.fst) →
      (fs.map Prod.fst).Nodup →
      fs.foldl (fun a e => insertD a e.1 e.2) acc = acc ++ fs := by
  induction fs with
  | nil =>
    intro acc _ _
    simp
  | cons e rest ih =>
    intro acc hdisj hnodup
    simp only [List.map_cons, List.nodup_cons] at hnodup
    rw [List.foldl_cons]
    rw [insertD_append_fresh acc e.1 e.2 (hdisj e (List.mem_cons_self _ _))]
    rw [ih (acc ++ [(e.1, e.2)]) ?hd hnodup.2]
    · simp
    case hd =>
      intro x hx
      rw [List.map_append]
      intro hmem
      rcases List.mem_append.mp hmem with hin | hin
      · exact hdisj x (List.mem_cons_of_mem _ hx) hin
      · have hx1 : x.1 = e.1 := by simpa using hin
        exact hnodup.1 (hx1 ▸ List.mem_map_of_mem Prod.fst hx)

/-- No line of the synthetic encoding embeds a newline when every entry
satisfies the round-trip precondition. -/
theorem encodeLines_no_nl (fs : List (String × String))
    (h : ∀ e ∈ fs, RoundTripEntry e) :
    ∀ l ∈ encodeLines fs, l.data.contains '\n' = false := by
  induction fs with
  | nil =>
    intro l hl
    simp [encodeLines] at hl
  | cons e rest ih =>
    intro l hl
    obtain ⟨_, _, _, _, _, _, hknl, hvnl⟩ := h e (List.mem_cons_self _ _)
    have hrest := fun x hx => h x (List.mem_cons_of_mem e hx)
    simp only [encodeLines, encodeEntry, List.cons_append, List.nil_append, List.mem_cons]
      at hl
    rcases hl with rfl | rfl | rfl | rfl | hl2
    · exact hknl
    · decide
    · exact hvnl
    · decide
    · exact ih hrest l hl2

/-- Running the loop over the encoding of remaining entries, starting
with a committed-pending block, folds dict insertions. -/
theorem foldl_parseStep_encode (fs : List (String × String)) :
    ∀ (files : List (String × String)) (k0 v0 : String), k0 ≠ "" →
      (∀ e ∈ fs, RoundTripEntry e) →
      parseFinalize ((encodeLines fs).foldl parseStep ⟨files, some k0, [v0]⟩) =
        fs.foldl (fun acc e => insertD acc e.1 e.2) (insertD files k0 v0) := by
  induction fs with
  | nil =>
    intro files k0 v0 hk0 _
    show parseFinalize ⟨files, some k0, [v0]⟩ = insertD files k0 v0
    unfold parseFinalize
    simp [truthyFile_some_of_ne hk0, pyJoinNl_singleton]
  | cons e rest ih =>
    intro files k0 v0 hk0 h
    obtain ⟨hm, hx, hke, _, hvm, hvf, _, _⟩ := h e (List.mem_cons_self _ _)
    have hrest := fun x hx2 => h x (List.mem_cons_of_mem e hx2)
    have hte : truthyFile (some e.1) = true := truthyFile_some_of_ne hke
    show parseFinalize
        ((("File: " ++ e.1) :: "```" :: e.2 :: "```" :: encodeLines rest).foldl parseStep
          ⟨files, some k0, [v0]⟩) = _
    rw [List.foldl_cons, parseStep_marker _ _ hm, hx]
    simp only [truthyFile_some_of_ne hk0, pyJoinNl_singleton, List.isEmpty_cons,
      Bool.not_false, Bool.and_self, if_true, Option.getD_some]
    rw [List.foldl_cons, parseStep_fence _ "```" (by decide) (by decide) hte]
    rw [List.foldl_cons, parseStep_content _ e.2 hvm hvf hte]
    rw [List.foldl_cons, parseStep_fence _ "```" (by decide) (by decide) hte]
    simp only [List.nil_append]
    rw [ih (insertD files k0 v0) e.1 e.2 hke hrest]
    rw [List.foldl_cons]

/-- C2 (amended). Encoding a non-empty file set whose entries satisfy
the round-trip precondition as a synthetic model response and parsing
it back recovers exactly the original mapping. -/
theorem parse_marker_roundtrip (fs : List (String × String))
    (hne : fs ≠ [])
    (hkeys : (fs.map Prod.fst).Nodup)
    (h : ∀ e ∈ fs, RoundTripEntry e) :
    parse_generated_content (encodeFileSet fs) = fs := by
  obtain ⟨e, rest, rfl⟩ : ∃ e rest, fs = e :: rest := by
    cases fs with
    | nil => exact absurd rfl hne
    | cons e rest => exact ⟨e, rest, rfl⟩
  obtain ⟨hm, hx, hke, _, hvm, hvf, _, _⟩ := h e (List.mem_cons_self _ _)
  have hrest := fun x hx2 => h x (List.mem_cons_of_mem e hx2)
  have hte : truthyFile (some e.1) = true := truthyFile_some_of_ne hke
  have hsplit : pySplitLines (encodeFileSet (e :: rest)) = encodeLines (e :: rest) := by
    apply pySplitLines_pyJoinNl _ (by simp [encodeLines, encodeEntry])
    exact encodeLines_no_nl _ h
  have hlines : parseLines (encodeLines (e :: rest)) = e :: rest := by
    unfold parseLines
    show parseFinalize
        ((("File: " ++ e.1) :: "```" :: e.2 :: "```" :: encodeLines rest).foldl parseStep
          ⟨[], none, []⟩) = _
    rw [List.foldl_cons, parseStep_marker _ _ hm, hx]
    simp only [truthyFile, Bool.false_and, Bool.false_eq_true, if_false]
    rw [List.foldl_cons, parseStep_fence _ "```" (by decide) (by decide) hte]
    rw [List.foldl_cons, parseStep_content _ e.2 hvm hvf hte]
    rw [List.foldl_cons, parseStep_fence _ "```" (by decide) (by decide) hte]
    simp only [List.nil_append]
    rw [foldl_parseStep_encode rest [] e.1 e.2 hke hrest]
    rw [foldl_insertD_fresh rest (insertD [] e.1 e.2) ?fresh ?nd]
    · simp [insertD]
    case fresh =>
      intro x hx2
      simp only [List.map_cons, List.nodup_cons] at hkeys
      show x.1 ∉ (insertD [] e.1 e.2).map Prod.fst
      simp only [insertD, List.map_cons, List.map_nil, List.mem_singleton]
      intro hx1
      exact hkeys.1 (hx1 ▸ List.mem_map_of_mem Prod.fst hx2)
    case nd =>
      simp only [List.map_cons, List.nodup_cons] at hkeys
      exact hkeys.2
  unfold parse_generated_content
  rw [hsplit, hlines]
  rfl

/-- Counterexample to C2 as stated: a one-entry file set with the key
`Index.html` (non-empty content) does not round-trip, because the
parser lower-cases the extracted filename. -/
theorem parse_marker_roundtrip_counterexample :
    parse_generated_content (encodeFileSet [("Index.html", "<h1>Hi</h1>")]) ≠
      [("Index.html", "<h1>Hi</h1>")] := by
  decide

/-- Witness for the amended C2 on the two-entry file set from the
specification example. -/
theorem parse_marker_roundtrip_witness :
    parse_generated_content
        (encodeFileSet [("index.html", "<h1>Hi</h1>"), ("styles.css", "body\x7bcolor:red\x7d")]) =
      [("index.html", "<h1>Hi</h1>"), ("styles.css", "body\x7bcolor:red\x7d")] :=
  parse_marker_roundtrip
    [("index.html", "<h1>Hi</h1>"), ("styles.css", "body\x7bcolor:red\x7d")]
    (by decide) (by decide)
    (by intro e he; fin_cases he <;> exact ⟨by decide, by decide, by decide, by decide,
      by decide, by decide, by decide, by decide⟩)

/-- Success characterization of the port-probing loop over its fuel. -/
theorem find_free_port_go_ok_iff (fuel : Nat) :
    ∀ (occupied : Nat → Bool) (port p : Nat),
      find_free_port_go occupied port fuel = .ok p ↔
        (port ≤ p ∧ p < port + fuel ∧ occupied p = false ∧
          ∀ q, port ≤ q → q < p → occupied q = true) := by
  induction fuel with
  | zero =>
    intro occupied port p
    constructor
    · intro h
      exact absurd h (by simp [find_free_port_go])
    · rintro ⟨h1, h2, _, _⟩
      omega
  | succ fuel ih =>
    intro occupied port p
    show (if occupied port then find_free_port_go occupied (port + 1) fuel else .ok port)
        = .ok p ↔ _
    by_cases hocc : occupied port = true
    · rw [if_pos hocc, ih]
      constructor
      · rintro ⟨h1, h2, h3, h4⟩
        refine ⟨by omega, by omega, h3, ?_⟩
        intro q hq1 hq2
        rcases Nat.eq_or_lt_of_le hq1 with rfl | hlt
        · exact hocc
        · exact h4 q (by omega) hq2
      · rintro ⟨h1, h2, h3, h4⟩
        have hne : p ≠ port := fun hx => by
          rw [hx] at h3
          rw [h3] at hocc
          exact Bool.false_ne_true hocc
        exact ⟨by omega, by omega, h3, fun q hq1 hq2 => h4 q (by omega) hq2⟩
    · have hocc2 : occupied port = false := by simpa using hocc
      rw [if_neg hocc]
      constructor
      · intro h
        injection h with h2
        subst h2
        exact ⟨le_refl _, by omega, hocc2, fun q hq1 hq2 => absurd hq2 (by omega)⟩
      · rintro ⟨h1, h2, h3, h4⟩
        have hp : p = port := by
          by_contra hne
          have := h4 port (le_refl _) (by omega)
          rw [hocc2] at this
          exact Bool.false_ne_true this
        subst hp
        rfl

/-- Failure characterization of the port-probing loop over its fuel. -/
theorem find_free_port_go_error_iff (fuel : Nat) :
    ∀ (occupied : Nat → Bool) (port : Nat) (e : PyErr),
      find_free_port_go occupied port fuel = .error e ↔
        (e = .runtimeError "No free ports available" ∧
          ∀ q, port ≤ q → q < port + fuel → occupied q = true) := by
  induction fuel with
  | zero =>
    intro occupied port e
    show Except.error (PyErr.runtimeError "No free ports available") = .error e ↔ _
    constructor
    · intro h
      injection h with h2
      exact ⟨h2.symm, fun q hq1 hq2 => absurd hq2 (by omega)⟩
    · rintro ⟨rfl, _⟩
      rfl
  | succ fuel ih =>
    intro occupied port e
    show (if occupied port then find_free_port_go occupied (port + 1) fuel else .ok port)
        = .error e ↔ _
    by_cases hocc : occupied port = true
    · rw [if_pos hocc, ih]
      constructor
      · rintro ⟨rfl, h2⟩
        refine ⟨rfl, ?_⟩
        intro q hq1 hq2
        rcases Nat.eq_or_lt_of_le hq1 with rfl | hlt
        · exact hocc
        · exact h2 q (by omega) (by omega)
      · rintro ⟨rfl, h2⟩
        exact ⟨rfl, fun q hq1 hq2 => h2 q (by omega) (by omega)⟩
    · rw [if_neg hocc]
      constructor
      · intro h
        exact absurd h (by simp)
      · rintro ⟨_, h2⟩
        have := h2 port (le_refl _) (by omega)
        exact absurd this hocc

/-- C6 (amended). `find_free_port` returns the smallest port at least
`startPort` whose probe fails, among ports strictly below 65535, and
fails with the no-ports condition exactly when every port from
`startPort` up to and including 65534 is occupied; port 65535 itself is
never probed. -/
theorem find_free_port_spec (occupied : Nat → Bool) (startPort p : Nat) :
    (find_free_port occupied startPort = .ok p ↔
      (startPort ≤ p ∧ p < 65535 ∧ occupied p = false ∧
        ∀ q, startPort ≤ q → q < p → occupied q = true))
    ∧ (find_free_port occupied startPort = .error (.runtimeError "No free ports available") ↔
        ∀ q, startPort ≤ q → q < 65535 → occupied q = true) := by
  constructor
  · rw [find_free_port, find_free_port_go_ok_iff]
    constructor
    · rintro ⟨h1, h2, h3, h4⟩
      exact ⟨h1, by omega, h3, h4⟩
    · rintro ⟨h1, h2, h3, h4⟩
      exact ⟨h1, by omega, h3, h4⟩
  · rw [find_free_port, find_free_port_go_error_iff]
    constructor
    · rintro ⟨_, h2⟩
      exact fun q hq1 hq2 => h2 q hq1 (by omega)
    · intro h2
      exact ⟨rfl, fun q hq1 hq2 => h2 q hq1 (by omega)⟩

/-- Counterexample to C6 as stated: with every port free, a search
starting at 65535 still fails, because the loop condition
`port < 65535` exits without ever probing port 65535. -/
theorem find_free_port_never_probes_65535 :
    find_free_port (fun _ => false) 65535 =
      .error (.runtimeError "No free ports available") := by
  decide

/-- C1 (failing run). `create_website_files` applies no traversal guard:
with the environment root `test_environments/env1`, the file-set key
`../../etc/passwd` resolves to `etc/passwd`, outside the environment
root, and the write happens there — nothing is rejected. -/
theorem create_website_files_traversal_escape :
    ((create_website_files ⟨[["test_environments"], ["test_environments", "env1"]], []⟩
        ["test_environments", "env1"]
        [("../../etc/passwd", "pwned")]).files.map Prod.fst).contains ["etc", "passwd"] = true
    ∧ List.isPrefixOf ["test_environments", "env1"] ["etc", "passwd"] = false := by
  decide

/-- Membership of a path is preserved by creating a directory. -/
theorem mem_mkdirExistOk (fs : FS) (p q : List String) (h : q ∈ fs.dirs) :
    q ∈ (mkdirExistOk fs p).dirs := by
  unfold mkdirExistOk
  by_cases hc : fs.dirs.contains p
  · rw [if_pos hc]
    exact h
  · rw [if_neg hc]
    exact List.mem_cons_of_mem _ h

/-- Creating a directory makes it exist. -/
theorem mem_mkdirExistOk_self (fs : FS) (p : List String) : p ∈ (mkdirExistOk fs p).dirs := by
  unfold mkdirExistOk
  by_cases hc : fs.dirs.contains p
  · rw [if_pos hc]
    simpa using hc
  · rw [if_neg hc]
    exact List.mem_cons_self _ _

/-- Creating a directory never touches the file table. -/
theorem files_mkdirExistOk (fs : FS) (p : List String) : (mkdirExistOk fs p).files = fs.files := by
  unfold mkdirExistOk
  by_cases hc : fs.dirs.contains p
  · rw [if_pos hc]
  · rw [if_neg hc]

/-- Creating an already existing directory is a no-op. -/
theorem mkdirExistOk_of_mem (fs : FS) (p : List String) (h : p ∈ fs.dirs) :
    mkdirExistOk fs p = fs := by
  unfold mkdirExistOk
  rw [if_pos (by simpa using h)]

/-- Membership of a path is preserved by the subdirectory-creation fold. -/
theorem mem_foldl_mkdir (ds : List String) :
    ∀ (fs : FS) (base q : List String), q ∈ fs.dirs →
      q ∈ (ds.foldl (fun fs d => mkdirExistOk fs (base ++ [d])) fs).dirs := by
  induction ds with
  | nil =>
    intro fs base q h
    exact h
  | cons d rest ih =>
    intro fs base q h
    exact ih _ base q (mem_mkdirExistOk fs (base ++ [d]) q h)

/-- Each subdirectory named in the fold exists afterwards. -/
theorem mem_foldl_mkdir_of_mem_list (ds : List String) :
    ∀ (fs : FS) (base : List String) (d : String), d ∈ ds →
      base ++ [d] ∈ (ds.foldl (fun fs d => mkdirExistOk fs (base ++ [d])) fs).dirs := by
  induction ds with
  | nil =>
    intro fs base d h
    exact absurd h (List.not_mem_nil d)
  | cons d0 rest ih =>
    intro fs base d h
    rcases List.mem_cons.mp h with rfl | h2
    · exact mem_foldl_mkdir rest _ base _ (mem_mkdirExistOk_self fs (base ++ [d]))
    · exact ih _ base d h2

/-- The subdirectory-creation fold never touches the file table. -/
theorem files_foldl_mkdir (ds : List String) :
    ∀ (fs : FS) (base : List String),
      (ds.foldl (fun fs d => mkdirExistOk fs (base ++ [d])) fs).files = fs.files := by
  induction ds with
  | nil =>
    intro fs base
    rfl
  | cons d rest ih =>
    intro fs base
    rw [List.foldl_cons, ih _ base, files_mkdirExistOk]

/-- The subdirectory-creation fold is a no-op when all subdirectories
already exist. -/
theorem foldl_mkdir_of_all_mem (ds : List String) :
    ∀ (fs : FS) (base : List String), (∀ d ∈ ds, base ++ [d] ∈ fs.dirs) →
      ds.foldl (fun fs d => mkdirExistOk fs (base ++ [d])) fs = fs := by
  induction ds with
  | nil =>
    intro fs base _
    rfl
  | cons d rest ih =>
    intro fs base h
    rw [List.foldl_cons, mkdirExistOk_of_mem fs _ (h d (List.mem_cons_self _ _))]
    exact ih fs base (fun x hx => h x (List.mem_cons_of_mem d hx))

/-- Unfolding equation of `create_test_environment`. -/
theorem create_test_environment_eq (st : EnvBuilderState) (name : String) (clean : Bool) :
    create_test_environment st name clean =
      ({ st with filesystem :=
          (standard_subdirs.foldl
            (fun fs d => mkdirExistOk fs ((st.baseDirectory ++ [name]) ++ [d]))
            (mkdirExistOk
              (if pathExistsB st.filesystem (st.baseDirectory ++ [name]) && clean then
                rmtree st.filesystem (st.baseDirectory ++ [name])
              else st.filesystem)
              (st.baseDirectory ++ [name]))) },
       st.baseDirectory ++ [name]) := rfl

/-- Creating an environment whose root and skeleton already exist, with
`clean = false`, changes nothing. -/
theorem create_test_environment_idem (st2 : EnvBuilderState) (name : String)
    (h1 : (st2.baseDirectory ++ [name]) ∈ st2.filesystem.dirs)
    (h2 : ∀ d ∈ standard_subdirs, (st2.baseDirectory ++ [name]) ++ [d] ∈ st2.filesystem.dirs) :
    create_test_environment st2 name false = (st2, st2.baseDirectory ++ [name]) := by
  unfold create_test_environment
  simp only [Bool.and_false, Bool.false_eq_true, if_false]
  rw [mkdirExistOk_of_mem _ _ h1, foldl_mkdir_of_all_mem _ _ _ h2]

set_option maxHeartbeats 1600000 in
/-- C8. After `create_test_environment`, the environment root and all
six fixed subdirectories exist, whatever the prior state; with
`clean = true` every file previously under the root is removed first;
and the call is idempotent on a pre-existing non-clean directory. -/
theorem create_test_environment_skeleton (st : EnvBuilderState) (name : String) (clean : Bool) :
    (st.baseDirectory ++ [name]) ∈ (create_test_environment st name clean).1.filesystem.dirs
    ∧ (∀ d ∈ standard_subdirs,
        (st.baseDirectory ++ [name]) ++ [d] ∈
          (create_test_environment st name clean).1.filesystem.dirs)
    ∧ (clean = true → pathExistsB st.filesystem (st.baseDirectory ++ [name]) = true →
        ∀ pc ∈ (create_test_environment st name clean).1.filesystem.files,
          List.isPrefixOf (st.baseDirectory ++ [name]) pc.1 = false)
    ∧ create_test_environment (create_test_environment st name false).1 name false =
        create_test_environment st name false := by
  have hdir : ∀ cl : Bool,
      (st.baseDirectory ++ [name]) ∈ (create_test_environment st name cl).1.filesystem.dirs := by
    intro cl
    rw [create_test_environment_eq]
    exact mem_foldl_mkdir standard_subdirs _ (st.baseDirectory ++ [name]) _
      (mem_mkdirExistOk_self _ _)
  have hsub : ∀ cl : Bool, ∀ d ∈ standard_subdirs,
      (st.baseDirectory ++ [name]) ++ [d] ∈
        (create_test_environment st name cl).1.filesystem.dirs := by
    intro cl d hd
    rw [create_test_environment_eq]
    exact mem_foldl_mkdir_of_mem_list standard_subdirs _ (st.baseDirectory ++ [name]) d hd
  have hbase : (create_test_environment st name false).1.baseDirectory = st.baseDirectory := by
    rw [create_test_environment_eq]
  refine ⟨hdir clean, hsub clean, ?_, ?_⟩
  · intro hclean hex pc hpc
    subst hclean
    have hfiles : (create_test_environment st name true).1.filesystem.files =
        st.filesystem.files.filter
          (fun f => !List.isPrefixOf (st.baseDirectory ++ [name]) f.1) := by
      rw [create_test_environment_eq]
      show (standard_subdirs.foldl
          (fun fs d => mkdirExistOk fs ((st.baseDirectory ++ [name]) ++ [d]))
          (mkdirExistOk
            (if pathExistsB st.filesystem (st.baseDirectory ++ [name]) && true then
              rmtree st.filesystem (st.baseDirectory ++ [name])
            else st.filesystem)
            (st.baseDirectory ++ [name]))).files = _
      rw [files_foldl_mkdir, files_mkdirExistOk, hex]
      rfl
    rw [hfiles] at hpc
    have hflt := (List.mem_filter.mp hpc).2
    simpa using hflt
  · have h1 : ((create_test_environment st name false).1.baseDirectory ++ [name]) ∈
        (create_test_environment st name false).1.filesystem.dirs := by
      rw [hbase]
      exact hdir false
    have h2 : ∀ d ∈ standard_subdirs,
        ((create_test_environment st name false).1.baseDirectory ++ [name]) ++ [d] ∈
          (create_test_environment st name false).1.filesystem.dirs := by
      rw [hbase]
      exact hsub false
    have hidem := create_test_environment_idem (create_test_environment st name false).1 name h1 h2
    rw [hidem, hbase, create_test_environment_eq st name false]

/-- Witness for C8 on a concrete state holding a stale file inside the
environment directory: after a clean create, the root and skeleton
exist and the stale file is gone. -/
theorem create_test_environment_skeleton_witness :
    (["base", "env1"] : List String) ∈
      (create_test_environment
        ⟨["base"], ⟨[["base"], ["base", "env1"]], [(["base", "env1", "old.txt"], "x")]⟩, []⟩
        "env1" true).1.filesystem.dirs
    ∧ ∀ pc ∈ (create_test_environment
        ⟨["base"], ⟨[["base"], ["base", "env1"]], [(["base", "env1", "old.txt"], "x")]⟩, []⟩
        "env1" true).1.filesystem.files,
        List.isPrefixOf (["base", "env1"] : List String) pc.1 = false :=
  ⟨(create_test_environment_skeleton
      ⟨["base"], ⟨[["base"], ["base", "env1"]], [(["base", "env1", "old.txt"], "x")]⟩, []⟩
      "env1" true).1,
   fun pc hpc =>
    (create_test_environment_skeleton
      ⟨["base"], ⟨[["base"], ["base", "env1"]], [(["base", "env1", "old.txt"], "x")]⟩, []⟩
      "env1" true).2.2.1 rfl (by decide) pc hpc⟩

/-- Number of registry entries for a given environment name. -/
def countServers (l : List (String × LocalWebServer)) (k : String) : Nat :=
  (l.filter (fun kv => kv.1 == k)).length

/-- A successful registry lookup returns a member entry. -/
theorem lookup_some_mem {l : List (String × LocalWebServer)} {k : String} {v : LocalWebServer}
    (h : List.lookup k l = some v) : (k, v) ∈ l := by
  induction l with
  | nil => simp [List.lookup] at h
  | cons kv rest ih =>
    obtain ⟨k0, v0⟩ := kv
    cases hk : (k == k0) with
    | true =>
      simp only [List.lookup, hk] at h
      injection h with h2
      have hkk : k = k0 := eq_of_beq hk
      subst hkk
      subst h2
      exact List.mem_cons_self _ _
    | false =>
      simp only [List.lookup, hk] at h
      exact List.mem_cons_of_mem _ (ih h)

/-- A name that fails to look up occurs zero times. -/
theorem countServers_zero_of_lookup_none {l : List (String × LocalWebServer)} {k : String}
    (h : List.lookup k l = none) : countServers l k = 0 := by
  induction l with
  | nil => rfl
  | cons kv rest ih =>
    obtain ⟨k0, v0⟩ := kv
    cases hk : (k == k0) with
    | true =>
      simp only [List.lookup, hk] at h
      exact Option.noConfusion h
    | false =>
      simp only [List.lookup, hk] at h
      have hk0 : (k0 == k) = false :=
        beq_eq_false_iff_ne.mpr (fun hx => (beq_eq_false_iff_ne.mp hk) hx.symm)
      simp only [countServers, List.filter, hk0]
      exact ih h

/-- Registering a fresh name appends the entry. -/
theorem insertServerD_append_of_lookup_none {l : List (String × LocalWebServer)} {k : String}
    (v : LocalWebServer) (h : List.lookup k l = none) :
    insertServerD l k v = l ++ [(k, v)] := by
  induction l with
  | nil => rfl
  | cons kv rest ih =>
    obtain ⟨k0, v0⟩ := kv
    cases hk : (k == k0) with
    | true =>
      simp only [List.lookup, hk] at h
      exact Option.noConfusion h
    | false =>
      simp only [List.lookup, hk] at h
      have hk0 : (k0 == k) = false :=
        beq_eq_false_iff_ne.mpr (fun hx => (beq_eq_false_iff_ne.mp hk) hx.symm)
      show (if k0 == k then (k, v) :: rest else (k0, v0) :: insertServerD rest k v) = _
      rw [hk0]
      simp only [Bool.false_eq_true, if_false, List.cons_append]
      rw [ih h]

/-- Appending one entry for a name bumps its registry count by one. -/
theorem countServers_append_single (l : List (String × LocalWebServer))
    (k : String) (v : LocalWebServer) :
    countServers (l ++ [(k, v)]) k = countServers l k + 1 := by
  unfold countServers
  rw [List.filter_append]
  simp [List.filter]

/-- A name absent from the key list occurs zero times. -/
theorem countServers_zero_of_not_mem {l : List (String × LocalWebServer)} {k : String}
    (h : k ∉ l.map Prod.fst) : countServers l k = 0 := by
  induction l with
  | nil => rfl
  | cons kv rest ih =>
    obtain ⟨k0, v0⟩ := kv
    simp only [List.map_cons, List.mem_cons, not_or] at h
    have hk0 : (k0 == k) = false := beq_eq_false_iff_ne.mpr (fun hx => h.1 hx.symm)
    simp only [countServers, List.filter, hk0]
    exact ih h.2

/-- With pairwise distinct keys, a name that looks up occurs exactly once. -/
theorem countServers_one_of_lookup_some {l : List (String × LocalWebServer)} {k : String}
    {v : LocalWebServer} (h : List.lookup k l = some v)
    (hnd : (l.map Prod.fst).Nodup) : countServers l k = 1 := by
  induction l with
  | nil => simp [List.lookup] at h
  | cons kv rest ih =>
    obtain ⟨k0, v0⟩ := kv
    simp only [List.map_cons, List.nodup_cons] at hnd
    cases hk : (k == k0) with
    | true =>
      have hkk : k = k0 := eq_of_beq hk
      subst hkk
      simp only [countServers, List.filter, beq_self_eq_true]
      have hz : countServers rest k = 0 := countServers_zero_of_not_mem hnd.1
      unfold countServers at hz
      rw [List.length_cons, hz]
    | false =>
      simp only [List.lookup, hk] at h
      have hk0 : (k0 == k) = false :=
        beq_eq_false_iff_ne.mpr (fun hx => (beq_eq_false_iff_ne.mp hk) hx.symm)
      simp only [countServers, List.filter, hk0]
      exact ih h hnd.2

/-- Looking up a freshly registered name finds the new server. -/
theorem lookup_insertServerD_self (l : List (String × LocalWebServer))
    (k : String) (v : LocalWebServer) :
    List.lookup k (insertServerD l k v) = some v := by
  induction l with
  | nil => simp [insertServerD, List.lookup]
  | cons kv rest ih =>
    obtain ⟨k0, v0⟩ := kv
    cases hk0 : (k0 == k) with
    | true =>
      show List.lookup k (if k0 == k then (k, v) :: rest else (k0, v0) :: insertServerD rest k v)
          = some v
      rw [hk0]
      simp [List.lookup]
    | false =>
      show List.lookup k (if k0 == k then (k, v) :: rest else (k0, v0) :: insertServerD rest k v)
          = some v
      rw [hk0]
      have hk : (k == k0) = false :=
        beq_eq_false_iff_ne.mpr (fun hx => (beq_eq_false_iff_ne.mp hk0) hx.symm)
      simp only [Bool.false_eq_true, if_false, List.lookup, hk]
      exact ih

/-- A successfully started server reports itself running on the
returned port. -/
theorem LocalWebServer.start_ok {occupied : Nat → Bool} {s s' : LocalWebServer} {p : Nat}
    (h : LocalWebServer.start occupied s = .ok (s', p)) :
    s'.isRunning = true ∧ s'.port = p := by
  unfold LocalWebServer.start at h
  by_cases hr : s.isRunning = true
  · rw [if_pos hr] at h
    injection h with h2
    rw [Prod.mk.injEq] at h2
    obtain ⟨h3, h4⟩ := h2
    subst h3
    exact ⟨hr, h4⟩
  · rw [if_neg hr] at h
    by_cases ho : occupied (LocalWebServer.retarget occupied s).port = true
    · rw [if_pos ho] at h
      exact Except.noConfusion h
    · rw [if_neg ho] at h
      injection h with h2
      rw [Prod.mk.injEq] at h2
      obtain ⟨h3, h4⟩ := h2
      subst h3
      exact ⟨rfl, h4⟩

/-- C5. Idempotent start: if a start call for an environment name
succeeded (under a well-formed registry of running servers), an
immediately following start call for the same name returns the very
same state and URL, the registry holds exactly one entry for the name,
and the returned URL is present; the second call never rebinds. -/
theorem start_local_server_idempotent (occupied : Nat → Bool) (st : EnvBuilderState)
    (envName : String) (port : Option Nat) (st1 : EnvBuilderState) (u : Option String)
    (hwf : (st.activeServers.map Prod.fst).Nodup)
    (hrun : ∀ kv ∈ st.activeServers, kv.2.isRunning = true)
    (h1 : start_local_server occupied st envName port = .ok (st1, u)) :
    start_local_server occupied st1 envName port = .ok (st1, u)
    ∧ countServers st1.activeServers envName = 1
    ∧ u.isSome = true := by
  unfold start_local_server at h1
  cases hex : pathExistsB st.filesystem (st.baseDirectory ++ [envName]) with
  | false =>
    rw [hex] at h1
    simp only [Bool.not_false, if_true] at h1
    exact Except.noConfusion h1
  | true =>
    rw [hex] at h1
    simp only [Bool.not_true, Bool.false_eq_true, if_false] at h1
    cases hlk : List.lookup envName st.activeServers with
    | some srv =>
      rw [hlk] at h1
      injection h1 with h2
      rw [Prod.mk.injEq] at h2
      obtain ⟨h3, h4⟩ := h2
      subst h3
      subst h4
      refine ⟨?_, ?_, ?_⟩
      · unfold start_local_server
        rw [hex]
        simp only [Bool.not_true, Bool.false_eq_true, if_false]
        rw [hlk]
      · exact countServers_one_of_lookup_some hlk hwf
      · have hmem := lookup_some_mem hlk
        have hr : srv.isRunning = true := hrun _ hmem
        simp [LocalWebServer.get_url, hr]
    | none =>
      rw [hlk] at h1
      cases hstart : LocalWebServer.start occupied
          ⟨st.baseDirectory ++ [envName], resolvePort port, false⟩ with
      | error e =>
        rw [hstart] at h1
        exact Except.noConfusion h1
      | ok pr =>
        obtain ⟨server, actualPort⟩ := pr
        rw [hstart] at h1
        injection h1 with h2
        rw [Prod.mk.injEq] at h2
        obtain ⟨h3, h4⟩ := h2
        subst h3
        subst h4
        obtain ⟨hsr, hsp⟩ := LocalWebServer.start_ok hstart
        refine ⟨?_, ?_, rfl⟩
        · unfold start_local_server
          show (if !pathExistsB st.filesystem (st.baseDirectory ++ [envName]) then _ else _) = _
          rw [hex]
          simp only [Bool.not_true, Bool.false_eq_true, if_false]
          show (match List.lookup envName (insertServerD st.activeServers envName server) with
            | some srv => Except.ok ({ st with activeServers := insertServerD st.activeServers envName server }, srv.get_url)
            | none =>
              match LocalWebServer.start occupied
                  ⟨st.baseDirectory ++ [envName], resolvePort port, false⟩ with
              | .error e => .error e
              | .ok (server2, actualPort2) =>
                .ok ({ st with activeServers :=
                        insertServerD (insertServerD st.activeServers envName server) envName server2 },
                     some ("http://localhost:" ++ toString actualPort2))) = _
          rw [lookup_insertServerD_self]
          simp [LocalWebServer.get_url, hsr, hsp]
        · show countServers (insertServerD st.activeServers envName server) envName = 1
          rw [insertServerD_append_of_lookup_none server hlk, countServers_append_single,
            countServers_zero_of_lookup_none hlk]

/-- Witness for C5 on a concrete one-environment state: the second
start call reproduces the first call's state and URL exactly. -/
theorem start_local_server_idempotent_witness :
    start_local_server (fun _ => false)
        ⟨["base"], ⟨[["base"], ["base", "env1"]], []⟩,
          [("env1", ⟨["base", "env1"], 8000, true⟩)]⟩
        "env1" none =
      .ok (⟨["base"], ⟨[["base"], ["base", "env1"]], []⟩,
            [("env1", ⟨["base", "env1"], 8000, true⟩)]⟩,
           some "http://localhost:8000")
    ∧ countServers [("env1", ⟨["base", "env1"], 8000, true⟩)] "env1" = 1
    ∧ (some "http://localhost:8000").isSome = true :=
  start_local_server_idempotent (fun _ => false)
    ⟨["base"], ⟨[["base"], ["base", "env1"]], []⟩, []⟩ "env1" none
    ⟨["base"], ⟨[["base"], ["base", "env1"]], []⟩,
      [("env1", ⟨["base", "env1"], 8000, true⟩)]⟩
    (some "http://localhost:8000") (by decide) (by decide) (by decide)

/-- Stopping a server keeps the base directory. -/
theorem stop_local_server_base (st : EnvBuilderState) (name : String) :
    (stop_local_server st name).baseDirectory = st.baseDirectory := by
  unfold stop_local_server
  cases List.lookup name st.activeServers <;> rfl

/-- Stopping a server keeps the filesystem. -/
theorem stop_local_server_filesystem (st : EnvBuilderState) (name : String) :
    (stop_local_server st name).filesystem = st.filesystem := by
  unfold stop_local_server
  cases List.lookup name st.activeServers <;> rfl

/-- Stopping an unregistered name is a no-op. -/
theorem stop_local_server_of_none (st : EnvBuilderState) (name : String)
    (h : List.lookup name st.activeServers = none) :
    stop_local_server st name = st := by
  unfold stop_local_server
  rw [h]

/-- Stopping a registered name filters its entry out of the registry. -/
theorem stop_local_server_of_some (st : EnvBuilderState) (name : String)
    (srv : LocalWebServer) (h : List.lookup name st.activeServers = some srv) :
    stop_local_server st name =
      { st with activeServers := st.activeServers.filter (fun kv => !(kv.1 == name)) } := by
  unfold stop_local_server
  rw [h]

/-- Filtering a key out of the registry makes its lookup fail. -/
theorem lookup_filter_self (l : List (String × LocalWebServer)) (k : String) :
    List.lookup k (l.filter (fun kv => !(kv.1 == k))) = none := by
  induction l with
  | nil => rfl
  | cons kv rest ih =>
    obtain ⟨k0, v0⟩ := kv
    cases hk0 : (k0 == k) with
    | true =>
      simp only [List.filter, hk0, Bool.not_true]
      exact ih
    | false =>
      have hk : (k == k0) = false :=
        beq_eq_false_iff_ne.mpr (fun hx => (beq_eq_false_iff_ne.mp hk0) hx.symm)
      simp only [List.filter, hk0, Bool.not_false, List.lookup, hk]
      exact ih

/-- After a stop, the name has no registry entry. -/
theorem lookup_stop_local_server (st : EnvBuilderState) (name : String) :
    List.lookup name (stop_local_server st name).activeServers = none := by
  cases hlk : List.lookup name st.activeServers with
  | none =>
    rw [stop_local_server_of_none st name hlk]
    exact hlk
  | some srv =>
    rw [stop_local_server_of_some st name srv hlk]
    exact lookup_filter_self st.activeServers name

/-- A removed tree no longer exists. -/
theorem pathExistsB_rmtree_self (fs : FS) (p : List String) :
    pathExistsB (rmtree fs p) p = false := by
  unfold pathExistsB rmtree
  rw [Bool.or_eq_false_iff]
  constructor
  · cases hc : (fs.dirs.filter (fun d => !List.isPrefixOf p d)).contains p with
    | false => rfl
    | true =>
      exfalso
      have hm : p ∈ fs.dirs.filter (fun d => !List.isPrefixOf p d) := by simpa using hc
      have hflt := (List.mem_filter.mp hm).2
      have hrefl : List.isPrefixOf p p = true := by
        rw [List.isPrefixOf_iff_prefix]
      rw [hrefl] at hflt
      simp at hflt
  · cases hc : (((fs.files.filter (fun f => !List.isPrefixOf p f.1)).map Prod.fst)).contains p with
    | false => rfl
    | true =>
      exfalso
      have hm : p ∈ (fs.files.filter (fun f => !List.isPrefixOf p f.1)).map Prod.fst := by
        simpa using hc
      rcases List.mem_map.mp hm with ⟨f, hf, hfp⟩
      have hflt := (List.mem_filter.mp hf).2
      rw [hfp] at hflt
      have hrefl : List.isPrefixOf p p = true := by
        rw [List.isPrefixOf_iff_prefix]
      rw [hrefl] at hflt
      simp at hflt

/-- C7. Cleanup of a name with no registered server and no directory is
a no-op that cannot fail; in every case, after cleanup the registry has
no entry for the name (a registered server is stopped and deregistered)
and the environment directory no longer exists. -/
theorem cleanup_environment_props (st : EnvBuilderState) (envName : String) :
    (List.lookup envName st.activeServers = none →
      pathExistsB st.filesystem (st.baseDirectory ++ [envName]) = false →
      cleanup_environment st envName = st)
    ∧ List.lookup envName (cleanup_environment st envName).activeServers = none
    ∧ pathExistsB (cleanup_environment st envName).filesystem
        (st.baseDirectory ++ [envName]) = false := by
  refine ⟨?_, ?_, ?_⟩
  · intro h1 h2
    unfold cleanup_environment
    rw [stop_local_server_base st envName, stop_local_server_filesystem st envName, h2]
    simp only [Bool.false_eq_true, if_false]
    exact stop_local_server_of_none st envName h1
  · unfold cleanup_environment
    rw [stop_local_server_base st envName, stop_local_server_filesystem st envName]
    by_cases hex : pathExistsB st.filesystem (st.baseDirectory ++ [envName]) = true
    · rw [if_pos hex]
      show List.lookup envName (stop_local_server st envName).activeServers = none
      exact lookup_stop_local_server st envName
    · rw [if_neg hex]
      exact lookup_stop_local_server st envName
  · unfold cleanup_environment
    rw [stop_local_server_base st envName, stop_local_server_filesystem st envName]
    by_cases hex : pathExistsB st.filesystem (st.baseDirectory ++ [envName]) = true
    · rw [if_pos hex]
      show pathExistsB (rmtree st.filesystem (st.baseDirectory ++ [envName]))
          (st.baseDirectory ++ [envName]) = false
      exact pathExistsB_rmtree_self st.filesystem (st.baseDirectory ++ [envName])
    · rw [if_neg hex]
      rw [stop_local_server_filesystem st envName]
      simpa using hex

/-- Witness for C7: cleanup of a wholly absent environment on a
concrete state leaves the state untouched, with no registry entry and
no directory for the name. -/
theorem cleanup_environment_props_witness :
    cleanup_environment ⟨["base"], ⟨[["base"]], []⟩, []⟩ "ghost" =
      ⟨["base"], ⟨[["base"]], []⟩, []⟩
    ∧ List.lookup "ghost"
        (cleanup_environment ⟨["base"], ⟨[["base"]], []⟩, []⟩ "ghost").activeServers = none
    ∧ pathExistsB (cleanup_environment ⟨["base"], ⟨[["base"]], []⟩, []⟩ "ghost").filesystem
        (["base"] ++ ["ghost"]) = false :=
  ⟨(cleanup_environment_props ⟨["base"], ⟨[["base"]], []⟩, []⟩ "ghost").1 (by decide) (by decide),
   (cleanup_environment_props ⟨["base"], ⟨[["base"]], []⟩, []⟩ "ghost").2.1,
   (cleanup_environment_props ⟨["base"], ⟨[["base"]], []⟩, []⟩ "ghost").2.2⟩

/-- C9 (failing run). When `env_name` is unspecified,
`deploy_to_local_environment` synthesizes and uses the name
`merchant_test_<rand>` (here `merchant_test_1234`, the only registry
entry of the final state), but the descriptor returned by
`generate_and_deploy` carries the constant `generated_test` in its
environment-name field — not the name actually created and served. -/
theorem generate_and_deploy_env_name_mismatch :
    (generate_and_deploy (fun _ => false) 1234 "File: a.html\nhi" "/app"
        ⟨["test_environments"], ⟨[["test_environments"]], []⟩, []⟩
        "make a site" none none none).toOption.map
      (fun p => (p.2.environment_name, p.1.activeServers.map Prod.fst, p.2.success)) =
      some ("generated_test", ["merchant_test_1234"], true) := by
  decide
